import Mathlib

/-!
# Verification of the Vlast GitHub-dashboard API layer

This file is a shallow embedding, in Lean 4, of the parts of the Vlast
repository that its specification makes claims about: the GitHub API client
(`src/utils/api.ts`, the `GitHubApi` class), the auth hook (`useAuth.ts`),
the React Query hooks (`useRepositories.ts`, `useRepositoryFiles.ts`), the
query-client retry configuration (`App.tsx`), and the file-upload handlers
in `WidgetComponent.tsx` / `NewRepoSuccessPage.tsx`.

The network is modelled as an oracle (a function from requests to
responses); browser local storage as an `Option String`; the React Query
cache as a list of keyed entries with an invalidation flag.  JavaScript
strings are modelled through their Unicode code points, and the
`btoa(unescape(encodeURIComponent(x)))` idiom used by `uploadFile` is
embedded function by function.
-/

namespace Vlast

/-! ## Text encodings

`uploadFile` computes `btoa(unescape(encodeURIComponent(params.content)))`.
We model each of the three browser built-ins over lists of naturals:
a JavaScript string is a list of Unicode code points, and the intermediate
"binary strings" are lists of char codes (each below 256 when well-formed).
-/

/-- UTF-8 encoding of a single Unicode code point (byte list).
Matches the encoding produced by `encodeURIComponent` percent-escapes. -/
def utf8EncodeNat (c : Nat) : List Nat :=
  if c < 128 then [c]
  else if c < 2048 then [192 + c / 64, 128 + c % 64]
  else if c < 65536 then [224 + c / 4096, 128 + c / 64 % 64, 128 + c % 64]
  else [240 + c / 262144, 128 + c / 4096 % 64, 128 + c / 64 % 64, 128 + c % 64]

/-- UTF-8 encoding of a list of code points. -/
def utf8EncodeList (cs : List Nat) : List Nat :=
  (cs.map utf8EncodeNat).flatten

/-- Parse the continuation byte of a 2-byte UTF-8 sequence with lead `b`. -/
def utf8DecTwo (b : Nat) : List Nat → Option (Nat × List Nat)
  | b2 :: rest =>
    if 128 ≤ b2 ∧ b2 < 192 then some ((b - 192) * 64 + (b2 - 128), rest) else none
  | [] => none

/-- Parse the continuation bytes of a 3-byte UTF-8 sequence with lead `b`. -/
def utf8DecThree (b : Nat) : List Nat → Option (Nat × List Nat)
  | b2 :: b3 :: rest =>
    if (128 ≤ b2 ∧ b2 < 192) ∧ (128 ≤ b3 ∧ b3 < 192) then
      some ((b - 224) * 4096 + (b2 - 128) * 64 + (b3 - 128), rest)
    else none
  | _ => none

/-- Parse the continuation bytes of a 4-byte UTF-8 sequence with lead `b`. -/
def utf8DecFour (b : Nat) : List Nat → Option (Nat × List Nat)
  | b2 :: b3 :: b4 :: rest =>
    if (128 ≤ b2 ∧ b2 < 192) ∧ (128 ≤ b3 ∧ b3 < 192) ∧ (128 ≤ b4 ∧ b4 < 192) then
      some ((b - 240) * 262144 + (b2 - 128) * 4096 + (b3 - 128) * 64 + (b4 - 128), rest)
    else none
  | _ => none

/-- Parse one UTF-8 code point off the front of a byte list; `none` on
malformed input. -/
def utf8DecodeOne : List Nat → Option (Nat × List Nat)
  | [] => none
  | b :: rest =>
    if b < 128 then some (b, rest)
    else if b < 192 then none
    else if b < 224 then utf8DecTwo b rest
    else if b < 240 then utf8DecThree b rest
    else if b < 248 then utf8DecFour b rest
    else none

/-- Fueled UTF-8 decoding loop (`utf8DecodeOne` consumes at least one byte
per step, so fuel = input length is always enough). -/
def utf8DecodeAux : Nat → List Nat → Option (List Nat)
  | _, [] => some []
  | 0, _ :: _ => none
  | fuel + 1, b :: rest =>
    match utf8DecodeOne (b :: rest) with
    | some (c, rem) => (utf8DecodeAux fuel rem).map (c :: ·)
    | none => none

/-- UTF-8 decoding: byte list back to code points; `none` on malformed
input.  Mathematical inverse used to state the round-trip property. -/
def utf8Decode (l : List Nat) : Option (List Nat) :=
  utf8DecodeAux l.length l

/-- The base64 alphabet: sextet value (0–63) to output char code. -/
def b64SextChar (v : Nat) : Nat :=
  if v < 26 then 65 + v
  else if v < 52 then 97 + (v - 26)
  else if v < 62 then 48 + (v - 52)
  else if v = 62 then 43
  else 47

/-- Inverse of the base64 alphabet: char code to sextet value. -/
def b64Val (c : Nat) : Option Nat :=
  if 65 ≤ c ∧ c ≤ 90 then some (c - 65)
  else if 97 ≤ c ∧ c ≤ 122 then some (c - 97 + 26)
  else if 48 ≤ c ∧ c ≤ 57 then some (c - 48 + 52)
  else if c = 43 then some 62
  else if c = 47 then some 63
  else none

/-- Base64 encoding of a byte list to a list of output char codes,
with `'='` (code 61) padding, as `btoa` produces. -/
def base64Encode : List Nat → List Nat
  | [] => []
  | [a] => [b64SextChar (a / 4), b64SextChar (a % 4 * 16), 61, 61]
  | [a, b] => [b64SextChar (a / 4), b64SextChar (a % 4 * 16 + b / 16),
               b64SextChar (b % 16 * 4), 61]
  | a :: b :: c :: rest =>
    b64SextChar (a / 4) :: b64SextChar (a % 4 * 16 + b / 16) ::
    b64SextChar (b % 16 * 4 + c / 64) :: b64SextChar (c % 64) ::
    base64Encode rest

/-- Decode a final base64 quantum that carries padding (`'='` = 61). -/
def b64DecodeLast (c1 c2 c3 c4 : Nat) : Option (List Nat) :=
  match b64Val c1, b64Val c2 with
  | some v1, some v2 =>
    if c3 = 61 then
      if c4 = 61 then some [v1 * 4 + v2 / 16] else none
    else
      match b64Val c3 with
      | some v3 =>
        if c4 = 61 then some [v1 * 4 + v2 / 16, v2 % 16 * 16 + v3 / 4] else none
      | none => none
  | _, _ => none

/-- Base64 decoding of a char-code list back to bytes; `none` on malformed
input.  Mathematical inverse used to state the round-trip property. -/
def b64Decode : List Nat → Option (List Nat)
  | [] => some []
  | c1 :: c2 :: c3 :: c4 :: rest =>
    if c3 = 61 ∨ c4 = 61 then
      if rest = [] then b64DecodeLast c1 c2 c3 c4 else none
    else
      match b64Val c1, b64Val c2, b64Val c3, b64Val c4, b64Decode rest with
      | some v1, some v2, some v3, some v4, some bs =>
        some ((v1 * 4 + v2 / 16) :: (v2 % 16 * 16 + v3 / 4) :: (v3 % 4 * 64 + v4) :: bs)
      | _, _, _, _, _ => none
  | _ => none

/-- Characters `encodeURIComponent` leaves unescaped:
`A–Z a–z 0–9 - _ . ! ~ * ' ( )` (codes given numerically). -/
def uriUnreservedChar (c : Nat) : Bool :=
  (decide (65 ≤ c) && decide (c ≤ 90)) ||
  (decide (97 ≤ c) && decide (c ≤ 122)) ||
  (decide (48 ≤ c) && decide (c ≤ 57)) ||
  (c == 45) || (c == 95) || (c == 46) || (c == 33) ||
  (c == 126) || (c == 42) || (c == 39) || (c == 40) || (c == 41)

/-- Uppercase hex digit char code for a nibble, as `encodeURIComponent` emits. -/
def hexDigitChar (v : Nat) : Nat :=
  if v < 10 then 48 + v else 55 + v

/-- Percent-escape of one byte: `%XY` as three char codes. -/
def pctEncodeByte (b : Nat) : List Nat :=
  [37, hexDigitChar (b / 16), hexDigitChar (b % 16)]

/-- `encodeURIComponent` over code points: unreserved ASCII passes through,
everything else becomes percent-escapes of its UTF-8 bytes. -/
def encodeURIComponentJS : List Nat → List Nat
  | [] => []
  | c :: rest =>
    (if uriUnreservedChar c then [c]
     else ((utf8EncodeNat c).map pctEncodeByte).flatten) ++
    encodeURIComponentJS rest

/-- Hex digit value accepted by `unescape` (upper or lower case). -/
def hexVal (c : Nat) : Option Nat :=
  if 48 ≤ c ∧ c ≤ 57 then some (c - 48)
  else if 65 ≤ c ∧ c ≤ 70 then some (c - 55)
  else if 97 ≤ c ∧ c ≤ 102 then some (c - 87)
  else none

/-- `unescape` over char codes: `%XY` with two hex digits decodes to one char
code, anything else is copied.  (The legacy `%uXXXX` form never occurs in
`encodeURIComponent` output, whose escapes use uppercase hex digits, so it
is not modelled.) -/
def unescapeJS : List Nat → List Nat
  | [] => []
  | [c] => [c]
  | [c, d] => [c, d]
  | c :: h1 :: h2 :: rest =>
    if c = 37 then
      match hexVal h1, hexVal h2 with
      | some v1, some v2 => (v1 * 16 + v2) :: unescapeJS rest
      | _, _ => 37 :: unescapeJS (h1 :: h2 :: rest)
    else c :: unescapeJS (h1 :: h2 :: rest)
termination_by l => l.length

/-- `btoa`: base64 of a latin-1 "binary string"; throws (here `none`) when a
char code exceeds 255. -/
def btoaJS (cs : List Nat) : Option (List Nat) :=
  if cs.all (fun c => c < 256) then some (base64Encode cs) else none

/-- The code points of a Lean string (model of a JavaScript string). -/
def strCodepoints (s : String) : List Nat :=
  s.data.map Char.toNat

/-- `src/utils/api.ts` `uploadFile`, line
`const base64Content = btoa(unescape(encodeURIComponent(params.content)));`
(`getD []` is inert: `btoaJS` provably succeeds on this input). -/
def base64Content (s : String) : List Nat :=
  (btoaJS (unescapeJS (encodeURIComponentJS (strCodepoints s)))).getD []

/-! ## API client data model

From `src/utils/api.ts` (the `GitHubApi` class imported by every hook) and
`src/types/index.ts`.  HTTP is modelled by an oracle
`net : HttpRequest → Resp α`: the operation builds its request, the oracle
answers it, and the operation returns both its result and the list of
requests it issued (so "issues no network request" is statable).  The
success payload is kept abstract (`α`), matching the unchecked
`response.json() as T` cast in the source.
-/

/-- One entry of a GitHub 422 `errors` array (`GitHubApiError.errors`). -/
structure SubError where
  resource : String
  field : String
  code : String
deriving DecidableEq, Repr

/-- `GitHubApiError` from `src/utils/api.ts`: message, optional HTTP status,
optional structured sub-errors (fields absent when constructed without). -/
structure GitHubApiError where
  message : String
  status : Option Nat := none
  errors : Option (List SubError) := none
deriving DecidableEq, Repr

/-- What `response.json()` yields on an error response, as read by
`handleResponse` (`errorData?.message`, `errorData?.errors`). -/
structure ErrBody where
  message : Option String
  errors : Option (List SubError)
deriving DecidableEq, Repr

/-- Request headers built by `getHeaders` (or inline in `validateToken`,
which omits `Content-Type`). -/
structure Headers where
  authorization : String
  accept : String
  contentType : Option String
deriving DecidableEq, Repr

/-- `{ name, email }` committer/author objects of the file endpoints. -/
structure Committer where
  name : String
  email : String
deriving DecidableEq, Repr

/-- `CreateRepositoryRequest` (fields the client logic reads; the request
body carries the whole record). -/
structure CreateRepositoryRequest where
  name : String
  description : Option String := none
  «private» : Option Bool := none
  auto_init : Option Bool := none
deriving DecidableEq, Repr

/-- `UpdateRepositoryRequest` (fields used by the components; the request
body carries the whole record). -/
structure UpdateRepositoryRequest where
  name : Option String := none
  description : Option String := none
  «private» : Option Bool := none
deriving DecidableEq, Repr

/-- `UploadFileRequest` from `src/types/index.ts`. -/
structure UploadFileRequest where
  path : String
  content : String
  message : String
  sha : Option String := none
  branch : Option String := none
  committer : Option Committer := none
  author : Option Committer := none
deriving DecidableEq, Repr

/-- `DeleteFileRequest` from `src/types/index.ts`. -/
structure DeleteFileRequest where
  path : String
  message : String
  sha : String
  branch : Option String := none
  committer : Option Committer := none
  author : Option Committer := none
deriving DecidableEq, Repr

/-- JSON request bodies the client sends (one constructor per body shape). -/
inductive ReqBody where
  | createRepo (params : CreateRepositoryRequest)
  | updateRepo (updates : UpdateRepositoryRequest)
  | upFile (message : String) (content : List Nat) (sha : Option String)
      (branch : Option String) (committer : Option Committer) (author : Option Committer)
  | delFile (message : String) (sha : String) (branch : Option String)
      (committer : Option Committer) (author : Option Committer)
deriving DecidableEq, Repr

/-- An HTTP request as the client builds it. -/
structure HttpRequest where
  method : String
  url : String
  headers : Headers
  body : Option ReqBody
deriving DecidableEq, Repr

/-- An HTTP response as the client consumes it: status line, the
error-shaped parse of the body (`none` models a JSON parse failure), and
the success payload (the unchecked `as T` cast). -/
structure Resp (α : Type) where
  ok : Bool
  status : Nat
  statusText : String
  errBody : Option ErrBody
  value : α

/-- `config.githubApi.baseUrl` from `src/config/environment.ts`. -/
def baseUrl : String := "https://api.github.com"

/-- `config.githubApi.tokenKey`: the local-storage key holding the token. -/
def tokenKey : String := "github_access_token"

/-- The error `getHeaders` throws when local storage holds no token.
Constructed without a status, so `status = none`. -/
def noTokenError : GitHubApiError :=
  { message := "No GitHub token found. Please submit your token first." }

/-- `GitHubApi.getHeaders`: reads the token from local storage (modelled as
`Option String`), throws `noTokenError` when absent.  The source check is
falsy (`if (!token)`), so a stored *empty-string* token — reachable only
through `login("")` against a server that approves an empty bearer token —
also throws in the source, while this model checks presence only; the
theorems below exercise the request path for an arbitrary stored token and
condition on the response received, where the distinction is inert. -/
def getHeaders : Option String → Except GitHubApiError Headers
  | none => .error noTokenError
  | some tok =>
    .ok { authorization := "Bearer " ++ tok
          accept := "application/vnd.github.v3+json"
          contentType := some "application/json" }

/-- The fallback message `handleResponse` builds from the status line. -/
def fallbackMessage (status : Nat) (statusText : String) : String :=
  "Request failed with status " ++ toString status ++ ": " ++ statusText

/-- `errorData?.message || fallback`: a missing body, missing field, or
empty (falsy) message falls back to the status-line message. -/
def errorMessageOf (errBody : Option ErrBody) (status : Nat) (statusText : String) : String :=
  match errBody with
  | some b =>
    match b.message with
    | some m => if m = "" then fallbackMessage status statusText else m
    | none => fallbackMessage status statusText
  | none => fallbackMessage status statusText

/-- The `GitHubApiError` thrown by `handleResponse` on a non-ok response. -/
def responseError (r : Resp α) : GitHubApiError :=
  { message := errorMessageOf r.errBody r.status r.statusText
    status := some r.status
    errors := r.errBody.bind ErrBody.errors }

/-- `GitHubApi.handleResponse`. -/
def handleResponse (r : Resp α) : Except GitHubApiError α :=
  if r.ok then .ok r.value else .error (responseError r)

/-- JavaScript truthiness of an optional string (`params.sha && …`:
the empty string is falsy, so the field is omitted). -/
def truthyStr : Option String → Option String
  | some s => if s = "" then none else some s
  | none => none

/-- `GitHubApi.fetchRepositories`. -/
def fetchRepositories (st : Option String) (net : HttpRequest → Resp α) :
    Except GitHubApiError α × List HttpRequest :=
  match getHeaders st with
  | .error e => (.error e, [])
  | .ok h =>
    let req : HttpRequest :=
      ⟨"GET", baseUrl ++ "/user/repos?per_page=100&sort=updated", h, none⟩
    (handleResponse (net req), [req])

/-- `GitHubApi.fetchRepository`. -/
def fetchRepository (st : Option String) (net : HttpRequest → Resp α)
    (owner repo : String) : Except GitHubApiError α × List HttpRequest :=
  match getHeaders st with
  | .error e => (.error e, [])
  | .ok h =>
    let req : HttpRequest := ⟨"GET", baseUrl ++ "/repos/" ++ owner ++ "/" ++ repo, h, none⟩
    (handleResponse (net req), [req])

/-- The remapped duplicate-name message of `createRepository`. -/
def duplicateNameMessage (name : String) : String :=
  "Repository name \x27" ++ name ++
  "\x27 already exists for your account. Please choose a different name."

/-- `GitHubApi.createRepository`: posts the params, and remaps a 422 error
whose sub-errors contain `field = "name", code = "already_exists"` to the
user-facing duplicate-name message (dropping the sub-errors, keeping the
status). -/
def createRepository (st : Option String) (net : HttpRequest → Resp α)
    (params : CreateRepositoryRequest) : Except GitHubApiError α × List HttpRequest :=
  match getHeaders st with
  | .error e => (.error e, [])
  | .ok h =>
    let req : HttpRequest := ⟨"POST", baseUrl ++ "/user/repos", h, some (.createRepo params)⟩
    match handleResponse (net req) with
    | .ok v => (.ok v, [req])
    | .error e =>
      if e.status = some 422 then
        match e.errors with
        | some errs =>
          match errs.find? (fun er => er.field == "name" && er.code == "already_exists") with
          | some _ =>
            (.error { message := duplicateNameMessage params.name, status := e.status }, [req])
          | none => (.error e, [req])
        | none => (.error e, [req])
      else (.error e, [req])

/-- `GitHubApi.updateRepository`. -/
def updateRepository (st : Option String) (net : HttpRequest → Resp α)
    (owner repo : String) (updates : UpdateRepositoryRequest) :
    Except GitHubApiError α × List HttpRequest :=
  match getHeaders st with
  | .error e => (.error e, [])
  | .ok h =>
    let req : HttpRequest :=
      ⟨"PATCH", baseUrl ++ "/repos/" ++ owner ++ "/" ++ repo, h, some (.updateRepo updates)⟩
    (handleResponse (net req), [req])

/-- `GitHubApi.deleteRepository`: unlike every other operation it does not
go through `handleResponse`; on failure it throws a message built from the
status line only, never reading the response body. -/
def deleteRepository (st : Option String) (net : HttpRequest → Resp α)
    (owner repo : String) : Except GitHubApiError Unit × List HttpRequest :=
  match getHeaders st with
  | .error e => (.error e, [])
  | .ok h =>
    let req : HttpRequest := ⟨"DELETE", baseUrl ++ "/repos/" ++ owner ++ "/" ++ repo, h, none⟩
    let r := net req
    if r.ok then (.ok (), [req])
    else
      (.error { message := "Failed to delete repository: " ++ r.statusText
                status := some r.status }, [req])

/-- `GitHubApi.toggleRepositoryVisibility`: delegates to `updateRepository`
with `{ private: makePrivate }`. -/
def toggleRepositoryVisibility (st : Option String) (net : HttpRequest → Resp α)
    (owner repo : String) (makePrivate : Bool) :
    Except GitHubApiError α × List HttpRequest :=
  updateRepository st net owner repo { «private» := some makePrivate }

/-- `GitHubApi.getRepositoryContents`. -/
def getRepositoryContents (st : Option String) (net : HttpRequest → Resp α)
    (owner repo path : String) : Except GitHubApiError α × List HttpRequest :=
  match getHeaders st with
  | .error e => (.error e, [])
  | .ok h =>
    let req : HttpRequest :=
      ⟨"GET", baseUrl ++ "/repos/" ++ owner ++ "/" ++ repo ++ "/contents/" ++ path, h, none⟩
    (handleResponse (net req), [req])

/-- `GitHubApi.getFileContent`. -/
def getFileContent (st : Option String) (net : HttpRequest → Resp α)
    (owner repo path : String) : Except GitHubApiError α × List HttpRequest :=
  match getHeaders st with
  | .error e => (.error e, [])
  | .ok h =>
    let req : HttpRequest :=
      ⟨"GET", baseUrl ++ "/repos/" ++ owner ++ "/" ++ repo ++ "/contents/" ++ path, h, none⟩
    (handleResponse (net req), [req])

/-- `GitHubApi.uploadFile`: base64-encodes the content
(`btoa(unescape(encodeURIComponent(params.content)))`) and PUTs it; the
optional fields are spread into the body only when truthy. -/
def uploadFile (st : Option String) (net : HttpRequest → Resp α)
    (owner repo : String) (params : UploadFileRequest) :
    Except GitHubApiError α × List HttpRequest :=
  match getHeaders st with
  | .error e => (.error e, [])
  | .ok h =>
    let content := base64Content params.content
    let body : ReqBody :=
      .upFile params.message content (truthyStr params.sha) (truthyStr params.branch)
        params.committer params.author
    let req : HttpRequest :=
      ⟨"PUT", baseUrl ++ "/repos/" ++ owner ++ "/" ++ repo ++ "/contents/" ++ params.path,
        h, some body⟩
    (handleResponse (net req), [req])

/-- `GitHubApi.deleteFile`. -/
def deleteFile (st : Option String) (net : HttpRequest → Resp α)
    (owner repo : String) (params : DeleteFileRequest) :
    Except GitHubApiError α × List HttpRequest :=
  match getHeaders st with
  | .error e => (.error e, [])
  | .ok h =>
    let body : ReqBody :=
      .delFile params.message params.sha (truthyStr params.branch)
        params.committer params.author
    let req : HttpRequest :=
      ⟨"DELETE", baseUrl ++ "/repos/" ++ owner ++ "/" ++ repo ++ "/contents/" ++ params.path,
        h, some body⟩
    (handleResponse (net req), [req])

/-- `GitHubApi.getCurrentUser`. -/
def getCurrentUser (st : Option String) (net : HttpRequest → Resp α) :
    Except GitHubApiError α × List HttpRequest :=
  match getHeaders st with
  | .error e => (.error e, [])
  | .ok h =>
    let req : HttpRequest := ⟨"GET", baseUrl ++ "/user", h, none⟩
    (handleResponse (net req), [req])

/-- The error `createRepository`'s catch block rethrows: a 422 whose
sub-errors contain `field = "name", code = "already_exists"` becomes the
duplicate-name message (keeping the status, dropping the sub-errors);
anything else is rethrown unchanged. -/
def createRepositoryCatch (name : String) (e : GitHubApiError) : GitHubApiError :=
  if e.status = some 422 then
    match e.errors with
    | some errs =>
      match errs.find? (fun er => er.field == "name" && er.code == "already_exists") with
      | some _ => { message := duplicateNameMessage name, status := e.status }
      | none => e
    | none => e
  else e

/-- `errorData.message || fallback` as the legacy client reads an error
body parsed with `.catch(() => ({}))`: a missing body, missing field, or
empty (falsy) message falls back to the operation's own message. -/
def bodyMessageOr (errBody : Option ErrBody) (fb : String) : String :=
  match errBody with
  | some b =>
    match b.message with
    | some m => if m = "" then fb else m
    | none => fb
  | none => fb

/-! ## The legacy API client (`githubApi` object)

The repository ships a second, older client (the `githubApi` object of
`part_007`), imported *directly* by `CreateRepoModal`, `WidgetComponent`
and `NewRepoSuccessPage`.  Its `getHeaders` reads the same storage key and
throws the same no-token error (modelled by the shared `getHeaders`), but
its operations do not share a `handleResponse`: each checks `response.ok`
inline, and only `createRepository`, `updateRepository`, `uploadFile` and
`deleteFile` parse the error body (`await response.json().catch(() => ({}))`);
`fetchRepositories`, `toggleRepositoryVisibility`, `deleteRepository`,
`getFileContent`, `getRepositoryContents` and `getCurrentUser` build their
message from the status line only. -/

namespace LegacyApi

/-- Legacy `githubApi.fetchRepositories`: status-line message only. -/
def fetchRepositories (st : Option String) (net : HttpRequest → Resp α) :
    Except GitHubApiError α × List HttpRequest :=
  match getHeaders st with
  | .error e => (.error e, [])
  | .ok h =>
    let req : HttpRequest :=
      ⟨"GET", baseUrl ++ "/user/repos?per_page=100&sort=updated", h, none⟩
    let r := net req
    if r.ok then (.ok r.value, [req])
    else
      (.error { message := "Failed to fetch repositories: " ++ r.statusText
                status := some r.status }, [req])

/-- The error the legacy `createRepository` throws on a non-ok response:
the same 422 duplicate-name remap, otherwise the parsed body message with
its own status-line fallback. -/
def createRepositoryError (name : String) (r : Resp α) : GitHubApiError :=
  if r.status = 422 then
    match r.errBody.bind ErrBody.errors with
    | some errs =>
      match errs.find? (fun er => er.field == "name" && er.code == "already_exists") with
      | some _ => { message := duplicateNameMessage name, status := some r.status }
      | none =>
        { message := bodyMessageOr r.errBody ("Failed to create repository: " ++ r.statusText)
          status := some r.status }
    | none =>
      { message := bodyMessageOr r.errBody ("Failed to create repository: " ++ r.statusText)
        status := some r.status }
  else
    { message := bodyMessageOr r.errBody ("Failed to create repository: " ++ r.statusText)
      status := some r.status }

/-- Legacy `githubApi.createRepository`: normalises the optional fields
with falsy defaults (`|| ''`, `|| false`) before posting. -/
def createRepository (st : Option String) (net : HttpRequest → Resp α)
    (params : CreateRepositoryRequest) : Except GitHubApiError α × List HttpRequest :=
  match getHeaders st with
  | .error e => (.error e, [])
  | .ok h =>
    let body : ReqBody := .createRepo
      { name := params.name
        description := some (params.description.getD "")
        «private» := some (params.«private».getD false)
        auto_init := some (params.auto_init.getD false) }
    let req : HttpRequest := ⟨"POST", baseUrl ++ "/user/repos", h, some body⟩
    let r := net req
    if r.ok then (.ok r.value, [req])
    else (.error (createRepositoryError params.name r), [req])

/-- Legacy `githubApi.toggleRepositoryVisibility`: its own PATCH, with a
status-line message only. -/
def toggleRepositoryVisibility (st : Option String) (net : HttpRequest → Resp α)
    (owner repo : String) (makePrivate : Bool) :
    Except GitHubApiError α × List HttpRequest :=
  match getHeaders st with
  | .error e => (.error e, [])
  | .ok h =>
    let req : HttpRequest :=
      ⟨"PATCH", baseUrl ++ "/repos/" ++ owner ++ "/" ++ repo, h,
        some (.updateRepo { «private» := some makePrivate })⟩
    let r := net req
    if r.ok then (.ok r.value, [req])
    else
      (.error { message := "Failed to update repository visibility: " ++ r.statusText
                status := some r.status }, [req])

/-- Legacy `githubApi.updateRepository`: parses the body. -/
def updateRepository (st : Option String) (net : HttpRequest → Resp α)
    (owner repo : String) (updates : UpdateRepositoryRequest) :
    Except GitHubApiError α × List HttpRequest :=
  match getHeaders st with
  | .error e => (.error e, [])
  | .ok h =>
    let req : HttpRequest :=
      ⟨"PATCH", baseUrl ++ "/repos/" ++ owner ++ "/" ++ repo, h, some (.updateRepo updates)⟩
    let r := net req
    if r.ok then (.ok r.value, [req])
    else
      (.error { message := bodyMessageOr r.errBody
                  ("Failed to update repository: " ++ r.statusText)
                status := some r.status }, [req])

/-- Legacy `githubApi.deleteRepository`: status-line message only. -/
def deleteRepository (st : Option String) (net : HttpRequest → Resp α)
    (owner repo : String) : Except GitHubApiError Unit × List HttpRequest :=
  match getHeaders st with
  | .error e => (.error e, [])
  | .ok h =>
    let req : HttpRequest := ⟨"DELETE", baseUrl ++ "/repos/" ++ owner ++ "/" ++ repo, h, none⟩
    let r := net req
    if r.ok then (.ok (), [req])
    else
      (.error { message := "Failed to delete repository: " ++ r.statusText
                status := some r.status }, [req])

/-- Legacy `githubApi.getFileContent`: status-line message only. -/
def getFileContent (st : Option String) (net : HttpRequest → Resp α)
    (owner repo path : String) : Except GitHubApiError α × List HttpRequest :=
  match getHeaders st with
  | .error e => (.error e, [])
  | .ok h =>
    let req : HttpRequest :=
      ⟨"GET", baseUrl ++ "/repos/" ++ owner ++ "/" ++ repo ++ "/contents/" ++ path, h, none⟩
    let r := net req
    if r.ok then (.ok r.value, [req])
    else
      (.error { message := "Failed to get file content: " ++ r.statusText
                status := some r.status }, [req])

/-- Legacy `githubApi.uploadFile`: same base64 pipeline, parses the body
on failure (only `sha` is conditionally spread; the legacy params carry no
branch/committer/author). -/
def uploadFile (st : Option String) (net : HttpRequest → Resp α)
    (owner repo : String) (params : UploadFileRequest) :
    Except GitHubApiError α × List HttpRequest :=
  match getHeaders st with
  | .error e => (.error e, [])
  | .ok h =>
    let content := base64Content params.content
    let body : ReqBody := .upFile params.message content (truthyStr params.sha) none none none
    let req : HttpRequest :=
      ⟨"PUT", baseUrl ++ "/repos/" ++ owner ++ "/" ++ repo ++ "/contents/" ++ params.path,
        h, some body⟩
    let r := net req
    if r.ok then (.ok r.value, [req])
    else
      (.error { message := bodyMessageOr r.errBody ("Failed to upload file: " ++ r.statusText)
                status := some r.status }, [req])

/-- Legacy `githubApi.deleteFile` (positional arguments): parses the body
on failure. -/
def deleteFile (st : Option String) (net : HttpRequest → Resp α)
    (owner repo path sha message : String) :
    Except GitHubApiError α × List HttpRequest :=
  match getHeaders st with
  | .error e => (.error e, [])
  | .ok h =>
    let req : HttpRequest :=
      ⟨"DELETE", baseUrl ++ "/repos/" ++ owner ++ "/" ++ repo ++ "/contents/" ++ path, h,
        some (.delFile message sha none none none)⟩
    let r := net req
    if r.ok then (.ok r.value, [req])
    else
      (.error { message := bodyMessageOr r.errBody ("Failed to delete file: " ++ r.statusText)
                status := some r.status }, [req])

/-- Legacy `githubApi.getRepositoryContents`: status-line message only. -/
def getRepositoryContents (st : Option String) (net : HttpRequest → Resp α)
    (owner repo path : String) : Except GitHubApiError α × List HttpRequest :=
  match getHeaders st with
  | .error e => (.error e, [])
  | .ok h =>
    let req : HttpRequest :=
      ⟨"GET", baseUrl ++ "/repos/" ++ owner ++ "/" ++ repo ++ "/contents/" ++ path, h, none⟩
    let r := net req
    if r.ok then (.ok r.value, [req])
    else
      (.error { message := "Failed to get repository contents: " ++ r.statusText
                status := some r.status }, [req])

/-- Legacy `githubApi.getCurrentUser`: status-line message only. -/
def getCurrentUser (st : Option String) (net : HttpRequest → Resp α) :
    Except GitHubApiError α × List HttpRequest :=
  match getHeaders st with
  | .error e => (.error e, [])
  | .ok h =>
    let req : HttpRequest := ⟨"GET", baseUrl ++ "/user", h, none⟩
    let r := net req
    if r.ok then (.ok r.value, [req])
    else
      (.error { message := "Failed to get current user: " ++ r.statusText
                status := some r.status }, [req])

end LegacyApi

/-! ## Token validation and auth (`validateToken`, `useAuth`)

`validateToken` builds its own headers from the explicit token (no storage
read) and wraps its fetch in `try { … } catch { return false }`, so a
network-level exception — modelled as the oracle answering `none` — yields
`false`, indistinguishable from a non-ok response. -/

/-- A fetch result as `validateToken` consumes it (only `.ok` is read). -/
structure FetchResult where
  ok : Bool
  status : Nat
deriving DecidableEq, Repr

/-- `GitHubApi.validateToken`: the oracle returns `none` when fetch throws
(offline, DNS failure); the catch turns that into `false`. -/
def validateToken (token : String) (net : HttpRequest → Option FetchResult) : Bool :=
  let req : HttpRequest :=
    ⟨"GET", baseUrl ++ "/user",
      { authorization := "Bearer " ++ token
        accept := "application/vnd.github.v3+json"
        contentType := none }, none⟩
  match net req with
  | some r => r.ok
  | none => false

/-- `useAuth.isAuthenticated`: `Boolean(localStorage.getItem(tokenKey))` —
`null` and the empty string are both falsy. -/
def isAuthenticated : Option String → Bool
  | none => false
  | some t => t ≠ ""

/-- `useAuth.login`: validates, persists the token exactly on success,
returns `false` leaving storage untouched otherwise (the catch also
swallows any thrown error). -/
def login (token : String) (st : Option String)
    (net : HttpRequest → Option FetchResult) : Bool × Option String :=
  if validateToken token net then (true, some token) else (false, st)

/-! ## Query cache model (React Query layer)

Query keys are arrays of strings that may contain `undefined`
(`QUERY_KEYS.repositoryContents(owner, repo)` produces a length-4 array
whose last element is `undefined`), modelled as `List (Option String)`.
`invalidateQueries` uses the library's partial key matching
(`partialMatchKey`/`partialDeepEqual`): every element of the filter key
must equal the query key's element at the same index, where reading past
the end of the query key yields `undefined`, and `undefined` equals only
`undefined`.  An entry is modelled with an invalidation flag; a read hits
the network iff its entry is missing or invalidated (an un-invalidated
entry inside its freshness window is served from cache, which is the
situation the claims are about; wall-clock staleness is not modelled). -/

/-- A React Query key: array elements are strings or `undefined`. -/
abbrev QueryKey := List (Option String)

/-- `QUERY_KEYS.repositories`. -/
def QK.repositories : QueryKey := [some "repositories"]

/-- `QUERY_KEYS.repository(owner, repo)`. -/
def QK.repository (owner repo : String) : QueryKey :=
  [some "repository", some owner, some repo]

/-- `QUERY_KEYS.user`. -/
def QK.user : QueryKey := [some "user"]

/-- `QUERY_KEYS.repositoryContents(owner, repo, path?)` — the optional
path is a real fourth element (`undefined` when omitted). -/
def QK.repositoryContents (owner repo : String) (path : Option String) : QueryKey :=
  [some "repository-contents", some owner, some repo, path]

/-- The library's partial key matching: each filter element must equal the
query key's element at that index (`undefined` beyond the end; `undefined`
matches only `undefined`, a string only the equal string). -/
def queryKeyMatches : QueryKey → QueryKey → Bool
  | _, [] => true
  | [], f :: fs => f.isNone && queryKeyMatches [] fs
  | k :: ks, f :: fs => (k == f) && queryKeyMatches ks fs

/-- One cached query. -/
structure CacheEntry where
  key : QueryKey
  isInvalidated : Bool
deriving DecidableEq, Repr

/-- The query cache. -/
abbrev Cache := List CacheEntry

/-- `queryClient.invalidateQueries({ queryKey: filter })`: mark every
matching entry invalidated. -/
def invalidateQueries (filter : QueryKey) (c : Cache) : Cache :=
  c.map fun e =>
    if queryKeyMatches e.key filter then { e with isInvalidated := true } else e

/-- Look up the cache entry of a key. -/
def cacheLookup (c : Cache) (k : QueryKey) : Option CacheEntry :=
  c.find? fun e => e.key == k

/-- Whether a subsequent read of `k` issues a fresh network call: yes iff
no entry is cached or the entry has been invalidated. -/
def readUsesNetwork (c : Cache) (k : QueryKey) : Bool :=
  match cacheLookup c k with
  | none => true
  | some e => e.isInvalidated

/-- `useCreateRepository` `onSuccess`: invalidate the repository list and
the current user. -/
def createRepositoryOnSuccess (c : Cache) : Cache :=
  invalidateQueries QK.user (invalidateQueries QK.repositories c)

/-- `useUpdateRepository` `onSuccess`: invalidate the specific repository
and the repository list. -/
def updateRepositoryOnSuccess (owner repo : String) (c : Cache) : Cache :=
  invalidateQueries QK.repositories (invalidateQueries (QK.repository owner repo) c)

/-- `useDeleteRepository` `onSuccess`: invalidate the repository list and
the current user. -/
def deleteRepositoryOnSuccess (c : Cache) : Cache :=
  invalidateQueries QK.user (invalidateQueries QK.repositories c)

/-- `useToggleRepositoryVisibility` `onSuccess`. -/
def toggleVisibilityOnSuccess (owner repo : String) (c : Cache) : Cache :=
  invalidateQueries QK.repositories (invalidateQueries (QK.repository owner repo) c)

/-- `useUploadFile` `onSuccess`: invalidates
`QUERY_KEYS.repositoryContents(owner, repo)` — path element `undefined`. -/
def uploadFileOnSuccess (owner repo : String) (c : Cache) : Cache :=
  invalidateQueries (QK.repositoryContents owner repo none) c

/-- `useDeleteFile` `onSuccess`: same filter as `useUploadFile`. -/
def deleteFileOnSuccess (owner repo : String) (c : Cache) : Cache :=
  invalidateQueries (QK.repositoryContents owner repo none) c

/-- `useAuth.logout`: remove the token and `queryClient.clear()` — the
cache is emptied, not merely invalidated. -/
def logout (st : Option String) (c : Cache) : Option String × Cache :=
  (none, [])

/-! ## Retry policy

`useRepositories` supplies a retry predicate, and `App.tsx` installs the
same predicate as the query client's default, inherited by every read hook
that sets none (`useRepository`, `useUser`, `useRepositoryContents`):
no retry on a 401/403 status, otherwise retry while `failureCount < 3`.
An error without a `status` property (network failure, unauthenticated
error) falls through to the count check. -/

/-- The retry predicate of `useRepositories` (`useRepositories.ts`). -/
def useRepositoriesRetry (failureCount : Nat) (e : GitHubApiError) : Bool :=
  match e.status with
  | some status =>
    if status = 401 ∨ status = 403 then false else decide (failureCount < 3)
  | none => decide (failureCount < 3)

/-- The query client's default retry predicate (`App.tsx`), textually the
same check. -/
def queryClientDefaultRetry (failureCount : Nat) (e : GitHubApiError) : Bool :=
  match e.status with
  | some status =>
    if status = 401 ∨ status = 403 then false else decide (failureCount < 3)
  | none => decide (failureCount < 3)

/-- The library's retry loop: run an attempt; on failure consult the retry
predicate with the current failure count (starting at 0) and either retry
or surface the error.  Returns the result and the total number of attempts
made.  `fuel` bounds the loop (the predicates here refuse after count 3,
so any fuel ≥ 3 gives the limit behaviour). -/
def runQueryWithRetry (retryFn : Nat → GitHubApiError → Bool)
    (attempt : Nat → Except GitHubApiError α) :
    Nat → Nat → Except GitHubApiError α × Nat
  | fc, 0 => (attempt fc, fc + 1)
  | fc, fuel + 1 =>
    match attempt fc with
    | .ok a => (.ok a, fc + 1)
    | .error e =>
      if retryFn fc e then runQueryWithRetry retryFn attempt (fc + 1) fuel
      else (.error e, fc + 1)

/-! ## File-upload handlers (view layer)

`WidgetComponent.handleFileUpload` (production path, repository present)
registers `reader.onload` and calls `reader.readAsText(file)`, which
returns immediately; the surrounding `try`/`finally` completes and the
handler's promise resolves before the callback ever runs.  An upload
failure inside the callback is rethrown there — into a detached promise —
and becomes an unhandled rejection; the handler's caller sees success.
The model returns what the caller observes plus the list of errors lost in
detached callbacks. -/

/-- Split a char list at a separator, JavaScript `String.prototype.split`
semantics (`'a/b' → ['a','b']`, `'' → ['']`, `'a/' → ['a','']`). -/
def splitCharList (sep : Char) : List Char → List (List Char)
  | [] => [[]]
  | c :: rest =>
    match splitCharList sep rest with
    | [] => if c = sep then [[], [c]] else [[c]]
    | g :: gs => if c = sep then [] :: g :: gs else (c :: g) :: gs

/-- `full_name.split('/')` as the upload handlers use it. -/
def jsSplitSlash (s : String) : List String :=
  (splitCharList (Char.ofNat 47) s.data).map String.mk

/-- Outcome of an upload handler: what its caller's `await` sees, and the
errors dropped inside detached callbacks. -/
structure UploadOutcome where
  callerResult : Except String Unit
  unhandledErrors : List GitHubApiError
deriving Repr

/-- The errors of an upload attempt that end up unhandled. -/
def droppedErrors : Except GitHubApiError α → List GitHubApiError
  | .ok _ => []
  | .error e => [e]

/-- `WidgetComponent.handleFileUpload`, production path: splits
`repository.full_name`, fires the `FileReader`, and resolves; the upload
runs in the detached `onload` callback. -/
def widgetHandleFileUpload (st : Option String) (net : HttpRequest → Resp α)
    (fullName fileName fileText commitMessage : String) : UploadOutcome :=
  let parts := jsSplitSlash fullName
  let owner := parts.headD ""
  let repoName := (parts.drop 1).headD ""
  let uploadResult :=
    (uploadFile st net owner repoName
      { path := fileName, content := fileText, message := commitMessage }).1
  { callerResult := .ok ()
    unhandledErrors := droppedErrors uploadResult }

/-- `NewRepoSuccessPage.handleFileUpload`, production path: additionally
rejects a malformed `full_name` synchronously (that error does reach the
caller); otherwise identical fire-and-forget shape. -/
def successPageHandleFileUpload (st : Option String) (net : HttpRequest → Resp α)
    (fullName fileName fileText commitMessage : String) : UploadOutcome :=
  let parts := jsSplitSlash fullName
  let owner := parts.headD ""
  let repoName := (parts.drop 1).headD ""
  if owner = "" ∨ repoName = "" then
    { callerResult := .error "Invalid repository name format"
      unhandledErrors := [] }
  else
    let uploadResult :=
      (uploadFile st net owner repoName
        { path := fileName, content := fileText, message := commitMessage }).1
    { callerResult := .ok ()
      unhandledErrors := droppedErrors uploadResult }

/-! ### Dashboard mutation handlers

`Dashboard.handleToggleVisibility` wraps its whole body in
`try { … } catch (err) { console.error(…) }`: whatever fails — the
full-name check or the toggle mutation — is logged and *not* rethrown, so
the handler's caller always sees success and no UI control is informed.
`Dashboard.handleDeleteRepository` has the same shape but *rethrows* from
its catch, so its error does reach the confirmation modal.  (The plain
`Error('Invalid repository name format')` is represented by a
`GitHubApiError` with no status, matching its observable shape.) -/

/-- Outcome of a dashboard mutation handler: what its caller's `await`
sees, and the errors that were only logged to the console. -/
structure HandlerOutcome where
  callerResult : Except GitHubApiError Unit
  swallowedErrors : List GitHubApiError
deriving Repr

/-- `Dashboard.handleToggleVisibility` (production): toggles to
`!repo.private`; every error is caught and only logged. -/
def dashboardHandleToggleVisibility (st : Option String) (net : HttpRequest → Resp α)
    (fullName : String) (repoPrivate : Bool) : HandlerOutcome :=
  let parts := jsSplitSlash fullName
  let owner := parts.headD ""
  let repoName := (parts.drop 1).headD ""
  if owner = "" ∨ repoName = "" then
    { callerResult := .ok ()
      swallowedErrors := [{ message := "Invalid repository name format" }] }
  else
    match (toggleRepositoryVisibility st net owner repoName (!repoPrivate)).1 with
    | .ok _ => { callerResult := .ok (), swallowedErrors := [] }
    | .error e => { callerResult := .ok (), swallowedErrors := [e] }

/-- `Dashboard.handleDeleteRepository` (production): its catch logs and
rethrows, so the error propagates to the confirmation modal's `await`. -/
def dashboardHandleDeleteRepository (st : Option String) (net : HttpRequest → Resp α)
    (fullName : String) : HandlerOutcome :=
  let parts := jsSplitSlash fullName
  let owner := parts.headD ""
  let repoName := (parts.drop 1).headD ""
  if owner = "" ∨ repoName = "" then
    { callerResult := .error { message := "Invalid repository name format" }
      swallowedErrors := [] }
  else
    match (deleteRepository st net owner repoName).1 with
    | .ok _ => { callerResult := .ok (), swallowedErrors := [] }
    | .error e => { callerResult := .error e, swallowedErrors := [] }

/-! ## Claim C1: no token ⇒ immediate unauthenticated failure, no request -/

/-- C1: with no token in local storage, every API client operation (list
repositories, fetch repository, create, update, delete, toggle visibility,
get contents, get file, upload file, delete file, get current user) fails
immediately with the unauthenticated `GitHubApiError` — which carries no
status — and issues no network request. -/
theorem claim1_no_token_fails_without_request (α : Type) (net : HttpRequest → Resp α)
    (owner repo path : String) (cparams : CreateRepositoryRequest)
    (updates : UpdateRepositoryRequest) (makePrivate : Bool)
    (uparams : UploadFileRequest) (dparams : DeleteFileRequest) :
    noTokenError.status = none ∧
    fetchRepositories none net = (.error noTokenError, []) ∧
    fetchRepository none net owner repo = (.error noTokenError, []) ∧
    createRepository none net cparams = (.error noTokenError, []) ∧
    updateRepository none net owner repo updates = (.error noTokenError, []) ∧
    deleteRepository none net owner repo = (.error noTokenError, []) ∧
    toggleRepositoryVisibility none net owner repo makePrivate = (.error noTokenError, []) ∧
    getRepositoryContents none net owner repo path = (.error noTokenError, []) ∧
    getFileContent none net owner repo path = (.error noTokenError, []) ∧
    uploadFile none net owner repo uparams = (.error noTokenError, []) ∧
    deleteFile none net owner repo dparams = (.error noTokenError, []) ∧
    getCurrentUser none net = (.error noTokenError, []) := by
  refine ⟨rfl, rfl, rfl, rfl, rfl, rfl, rfl, rfl, rfl, rfl, rfl, rfl⟩

/-! ## Claim C2: non-success responses

Most operations go through `handleResponse` and behave as the claim says;
`deleteRepository` does not: it never reads the response body, so its
message is always built from the status line. -/

/-- A concrete error response whose JSON body carries a message: used to
exhibit `deleteRepository` ignoring that message. -/
def respForbidden : Resp Unit :=
  { ok := false, status := 403, statusText := "Forbidden"
    errBody := some { message := some "Must have admin rights to delete.", errors := none }
    value := () }

/-- C2 counterexample: `deleteRepository` receives a 403 whose JSON body
parses and carries a message, yet the surfaced error message is built from
the status line and differs from the parsed body message — refuting "every
API client call … fails with … a best-effort message parsed from the JSON
response body". -/
theorem claim2_counterexample :
    (deleteRepository (some "tok") (fun _ => respForbidden) "octo" "demo").1 =
      .error { message := "Failed to delete repository: Forbidden", status := some 403 } ∧
    errorMessageOf respForbidden.errBody respForbidden.status respForbidden.statusText =
      "Must have admin rights to delete." ∧
    "Failed to delete repository: Forbidden" ≠ "Must have admin rights to delete." := by
  refine ⟨rfl, rfl, by decide⟩

/-- `createRepositoryCatch` never changes the carried status. -/
theorem createRepositoryCatch_status (n : String) (e : GitHubApiError) :
    (createRepositoryCatch n e).status = e.status := by
  rw [createRepositoryCatch]
  split
  · split
    · split <;> rfl
    · rfl
  · rfl

/-- The legacy create error always carries the response status. -/
theorem legacy_createRepositoryError_status (α : Type) (n : String) (r : Resp α) :
    (LegacyApi.createRepositoryError n r).status = some r.status := by
  rw [LegacyApi.createRepositoryError]
  split
  · split
    · split <;> rfl
    · rfl
  · rfl

/-- C2 (amended): every call that receives a non-success HTTP status fails
with an error carrying that status code.  In the `GitHubApi` class, every
operation that goes through `handleResponse` surfaces the best-effort
body-parsed message with the status-line fallback; `createRepository`
additionally remaps the 422 `name`/`already_exists` case to its
constructed duplicate-name message instead of the body message (the
`createRepositoryCatch` equation, status preserved); `deleteRepository`
ignores the body and uses a status-line message.  In the legacy
`githubApi` client, only `createRepository` (with the same 422 remap),
`updateRepository`, `uploadFile` and `deleteFile` parse the body;
`fetchRepositories`, `toggleRepositoryVisibility`, `deleteRepository`,
`getFileContent`, `getRepositoryContents` and `getCurrentUser` always
build their message from the status line. -/
theorem claim2_amended_non_success_errors (α : Type) (r : Resp α)
    (tok owner repo path : String) (cparams : CreateRepositoryRequest)
    (updates : UpdateRepositoryRequest) (makePrivate : Bool)
    (uparams : UploadFileRequest) (dparams : DeleteFileRequest)
    (lpath lsha lmsg : String)
    (hok : r.ok = false) :
    (responseError r).status = some r.status ∧
    (responseError r).message = errorMessageOf r.errBody r.status r.statusText ∧
    (fetchRepositories (some tok) (fun _ => r)).1 = .error (responseError r) ∧
    (fetchRepository (some tok) (fun _ => r) owner repo).1 = .error (responseError r) ∧
    (createRepository (some tok) (fun _ => r) cparams).1 =
      .error (createRepositoryCatch cparams.name (responseError r)) ∧
    (createRepositoryCatch cparams.name (responseError r)).status = some r.status ∧
    (updateRepository (some tok) (fun _ => r) owner repo updates).1 =
      .error (responseError r) ∧
    (toggleRepositoryVisibility (some tok) (fun _ => r) owner repo makePrivate).1 =
      .error (responseError r) ∧
    (getRepositoryContents (some tok) (fun _ => r) owner repo path).1 =
      .error (responseError r) ∧
    (getFileContent (some tok) (fun _ => r) owner repo path).1 = .error (responseError r) ∧
    (uploadFile (some tok) (fun _ => r) owner repo uparams).1 = .error (responseError r) ∧
    (deleteFile (some tok) (fun _ => r) owner repo dparams).1 = .error (responseError r) ∧
    (getCurrentUser (some tok) (fun _ => r)).1 = .error (responseError r) ∧
    (deleteRepository (some tok) (fun _ => r) owner repo).1 =
      .error { message := "Failed to delete repository: " ++ r.statusText
               status := some r.status } ∧
    (LegacyApi.fetchRepositories (some tok) (fun _ => r)).1 =
      .error { message := "Failed to fetch repositories: " ++ r.statusText
               status := some r.status } ∧
    (LegacyApi.createRepository (some tok) (fun _ => r) cparams).1 =
      .error (LegacyApi.createRepositoryError cparams.name r) ∧
    (LegacyApi.createRepositoryError cparams.name r).status = some r.status ∧
    (LegacyApi.toggleRepositoryVisibility (some tok) (fun _ => r) owner repo makePrivate).1 =
      .error { message := "Failed to update repository visibility: " ++ r.statusText
               status := some r.status } ∧
    (LegacyApi.updateRepository (some tok) (fun _ => r) owner repo updates).1 =
      .error { message := bodyMessageOr r.errBody
                 ("Failed to update repository: " ++ r.statusText)
               status := some r.status } ∧
    (LegacyApi.deleteRepository (some tok) (fun _ => r) owner repo).1 =
      .error { message := "Failed to delete repository: " ++ r.statusText
               status := some r.status } ∧
    (LegacyApi.getFileContent (some tok) (fun _ => r) owner repo path).1 =
      .error { message := "Failed to get file content: " ++ r.statusText
               status := some r.status } ∧
    (LegacyApi.uploadFile (some tok) (fun _ => r) owner repo uparams).1 =
      .error { message := bodyMessageOr r.errBody ("Failed to upload file: " ++ r.statusText)
               status := some r.status } ∧
    (LegacyApi.deleteFile (some tok) (fun _ => r) owner repo lpath lsha lmsg).1 =
      .error { message := bodyMessageOr r.errBody ("Failed to delete file: " ++ r.statusText)
               status := some r.status } ∧
    (LegacyApi.getRepositoryContents (some tok) (fun _ => r) owner repo path).1 =
      .error { message := "Failed to get repository contents: " ++ r.statusText
               status := some r.status } ∧
    (LegacyApi.getCurrentUser (some tok) (fun _ => r)).1 =
      .error { message := "Failed to get current user: " ++ r.statusText
               status := some r.status } := by
  have hhandle : handleResponse r = .error (responseError r) := by
    simp [handleResponse, hok]
  refine ⟨rfl, rfl, ?_, ?_, ?_, ?_, ?_, ?_, ?_, ?_, ?_, ?_, ?_, ?_, ?_, ?_,
    legacy_createRepositoryError_status α cparams.name r,
    ?_, ?_, ?_, ?_, ?_, ?_, ?_, ?_⟩
  · simp [fetchRepositories, getHeaders, hhandle]
  · simp [fetchRepository, getHeaders, hhandle]
  · simp only [createRepository, getHeaders, hhandle, createRepositoryCatch]
    split
    · split
      · split <;> rfl
      · rfl
    · rfl
  · rw [createRepositoryCatch_status]
    rfl
  · simp [updateRepository, getHeaders, hhandle]
  · simp [toggleRepositoryVisibility, updateRepository, getHeaders, hhandle]
  · simp [getRepositoryContents, getHeaders, hhandle]
  · simp [getFileContent, getHeaders, hhandle]
  · simp [uploadFile, getHeaders, hhandle]
  · simp [deleteFile, getHeaders, hhandle]
  · simp [getCurrentUser, getHeaders, hhandle]
  · simp [deleteRepository, getHeaders, hok]
  · simp [LegacyApi.fetchRepositories, getHeaders, hok]
  · simp [LegacyApi.createRepository, getHeaders, hok]
  · simp [LegacyApi.toggleRepositoryVisibility, getHeaders, hok]
  · simp [LegacyApi.updateRepository, getHeaders, hok]
  · simp [LegacyApi.deleteRepository, getHeaders, hok]
  · simp [LegacyApi.getFileContent, getHeaders, hok]
  · simp [LegacyApi.uploadFile, getHeaders, hok]
  · simp [LegacyApi.deleteFile, getHeaders, hok]
  · simp [LegacyApi.getRepositoryContents, getHeaders, hok]
  · simp [LegacyApi.getCurrentUser, getHeaders, hok]

/-- The concrete 500 response (unparsable body) used by the C2 witness. -/
def resp500 : Resp Unit := ⟨false, 500, "Internal Server Error", none, ()⟩

/-- Witness for C2 (amended) at a concrete 500 response with an unparsable
body (`errBody = none`), across both clients. -/
theorem claim2_amended_witness :
    (responseError resp500).status = some 500 ∧
    (responseError resp500).message = errorMessageOf none 500 "Internal Server Error" ∧
    (fetchRepositories (some "tok") (fun _ => resp500)).1 = .error (responseError resp500) ∧
    (fetchRepository (some "tok") (fun _ => resp500) "o" "r").1 =
      .error (responseError resp500) ∧
    (createRepository (some "tok") (fun _ => resp500) { name := "n" }).1 =
      .error (createRepositoryCatch "n" (responseError resp500)) ∧
    (createRepositoryCatch "n" (responseError resp500)).status = some 500 ∧
    (updateRepository (some "tok") (fun _ => resp500) "o" "r" {}).1 =
      .error (responseError resp500) ∧
    (toggleRepositoryVisibility (some "tok") (fun _ => resp500) "o" "r" true).1 =
      .error (responseError resp500) ∧
    (getRepositoryContents (some "tok") (fun _ => resp500) "o" "r" "").1 =
      .error (responseError resp500) ∧
    (getFileContent (some "tok") (fun _ => resp500) "o" "r" "").1 =
      .error (responseError resp500) ∧
    (uploadFile (some "tok") (fun _ => resp500) "o" "r"
      { path := "p", content := "c", message := "m" }).1 = .error (responseError resp500) ∧
    (deleteFile (some "tok") (fun _ => resp500) "o" "r"
      { path := "p", message := "m", sha := "s" }).1 = .error (responseError resp500) ∧
    (getCurrentUser (some "tok") (fun _ => resp500)).1 = .error (responseError resp500) ∧
    (deleteRepository (some "tok") (fun _ => resp500) "o" "r").1 =
      .error { message := "Failed to delete repository: " ++ "Internal Server Error"
               status := some 500 } ∧
    (LegacyApi.fetchRepositories (some "tok") (fun _ => resp500)).1 =
      .error { message := "Failed to fetch repositories: " ++ "Internal Server Error"
               status := some 500 } ∧
    (LegacyApi.createRepository (some "tok") (fun _ => resp500) { name := "n" }).1 =
      .error (LegacyApi.createRepositoryError "n" resp500) ∧
    (LegacyApi.createRepositoryError "n" resp500).status = some 500 ∧
    (LegacyApi.toggleRepositoryVisibility (some "tok") (fun _ => resp500) "o" "r" true).1 =
      .error { message := "Failed to update repository visibility: " ++ "Internal Server Error"
               status := some 500 } ∧
    (LegacyApi.updateRepository (some "tok") (fun _ => resp500) "o" "r" {}).1 =
      .error { message := bodyMessageOr none
                 ("Failed to update repository: " ++ "Internal Server Error")
               status := some 500 } ∧
    (LegacyApi.deleteRepository (some "tok") (fun _ => resp500) "o" "r").1 =
      .error { message := "Failed to delete repository: " ++ "Internal Server Error"
               status := some 500 } ∧
    (LegacyApi.getFileContent (some "tok") (fun _ => resp500) "o" "r" "").1 =
      .error { message := "Failed to get file content: " ++ "Internal Server Error"
               status := some 500 } ∧
    (LegacyApi.uploadFile (some "tok") (fun _ => resp500) "o" "r"
      { path := "p", content := "c", message := "m" }).1 =
      .error { message := bodyMessageOr none
                 ("Failed to upload file: " ++ "Internal Server Error")
               status := some 500 } ∧
    (LegacyApi.deleteFile (some "tok") (fun _ => resp500) "o" "r" "p" "s" "m").1 =
      .error { message := bodyMessageOr none
                 ("Failed to delete file: " ++ "Internal Server Error")
               status := some 500 } ∧
    (LegacyApi.getRepositoryContents (some "tok") (fun _ => resp500) "o" "r" "").1 =
      .error { message := "Failed to get repository contents: " ++ "Internal Server Error"
               status := some 500 } ∧
    (LegacyApi.getCurrentUser (some "tok") (fun _ => resp500)).1 =
      .error { message := "Failed to get current user: " ++ "Internal Server Error"
               status := some 500 } :=
  claim2_amended_non_success_errors Unit resp500
    "tok" "o" "r" "" { name := "n" } {} true { path := "p", content := "c", message := "m" }
    { path := "p", message := "m", sha := "s" } "p" "s" "m" rfl

/-! ## Claim C5: duplicate-name remap on create -/

/-- The duplicate-name message always differs from the generic status-line
fallback: their fourth characters differ (`Repo…` vs `Requ…`). -/
theorem duplicateNameMessage_ne_fallback (n : String) (s : Nat) (st : String) :
    duplicateNameMessage n ≠ fallbackMessage s st := by
  intro h
  have h1 : (duplicateNameMessage n).data.take 4 = ['R', 'e', 'p', 'o'] := by
    rw [duplicateNameMessage]
    simp only [String.data_append, List.append_assoc]
    rw [List.take_append_of_le_length (by decide)]
    decide
  have h2 : (fallbackMessage s st).data.take 4 = ['R', 'e', 'q', 'u'] := by
    rw [fallbackMessage]
    simp only [String.data_append, List.append_assoc]
    rw [List.take_append_of_le_length (by decide)]
    decide
  rw [h, h2] at h1
  simp at h1

/-- C5: a create-repository call answered with HTTP 422 whose sub-errors
contain `field = "name", code = "already_exists"` surfaces the user-facing
duplicate-name message naming the attempted repository name, carrying
status 422, and that message is distinct from the generic status-line
failure message. -/
theorem claim5_duplicate_name_remap (α : Type) (r : Resp α) (tok : String)
    (params : CreateRepositoryRequest) (b : ErrBody) (errs : List SubError) (se : SubError)
    (hok : r.ok = false) (hst : r.status = 422) (hb : r.errBody = some b)
    (herrs : b.errors = some errs) (hmem : se ∈ errs)
    (hf : se.field = "name") (hc : se.code = "already_exists") :
    (createRepository (some tok) (fun _ => r) params).1 =
      .error { message := duplicateNameMessage params.name, status := some 422 } ∧
    duplicateNameMessage params.name ≠ fallbackMessage 422 r.statusText := by
  refine ⟨?_, duplicateNameMessage_ne_fallback params.name 422 r.statusText⟩
  have hhandle : handleResponse r = .error (responseError r) := by
    simp [handleResponse, hok]
  have hfind : (errs.find? fun er => er.field == "name" && er.code == "already_exists").isSome := by
    rw [List.find?_isSome]
    exact ⟨se, hmem, by simp [hf, hc]⟩
  obtain ⟨x, hx⟩ := Option.isSome_iff_exists.mp hfind
  have herr : (responseError r).errors = some errs := by
    simp [responseError, hb, herrs]
  have hstat : (responseError r).status = some 422 := by
    simp [responseError, hst]
  simp only [createRepository, getHeaders, hhandle, herr, hstat, if_pos, hx]

/-- Witness for C5 at a concrete 422 response. -/
theorem claim5_witness :
    (createRepository (some "tok")
      (fun _ => (⟨false, 422, "Unprocessable Entity",
        some ⟨some "Validation Failed",
              some [⟨"Repository", "name", "already_exists"⟩]⟩, ()⟩ : Resp Unit))
      { name := "demo" }).1 =
      .error { message := duplicateNameMessage "demo", status := some 422 } ∧
    duplicateNameMessage "demo" ≠ fallbackMessage 422 "Unprocessable Entity" :=
  claim5_duplicate_name_remap Unit
    ⟨false, 422, "Unprocessable Entity",
      some ⟨some "Validation Failed", some [⟨"Repository", "name", "already_exists"⟩]⟩, ()⟩
    "tok" { name := "demo" }
    ⟨some "Validation Failed", some [⟨"Repository", "name", "already_exists"⟩]⟩
    [⟨"Repository", "name", "already_exists"⟩] ⟨"Repository", "name", "already_exists"⟩
    rfl rfl rfl rfl (List.mem_singleton.mpr rfl) rfl rfl

/-! ## Claim C4: 401/403 terminal, others retried to the ceiling -/

/-- On a non-401/403 error both retry predicates reduce to the count
ceiling check. -/
theorem retry_of_not_auth (e : GitHubApiError)
    (h : ∀ s, e.status = some s → s ≠ 401 ∧ s ≠ 403) (fc : Nat) :
    useRepositoriesRetry fc e = decide (fc < 3) ∧
    queryClientDefaultRetry fc e = decide (fc < 3) := by
  cases hs : e.status with
  | none => exact ⟨by simp [useRepositoriesRetry, hs], by simp [queryClientDefaultRetry, hs]⟩
  | some s =>
    obtain ⟨h1, h2⟩ := h s hs
    constructor
    · simp [useRepositoriesRetry, hs, h1, h2]
    · simp [queryClientDefaultRetry, hs, h1, h2]

/-- The retry loop surfaces a non-auth persistent failure after exactly
four attempts (one initial + three retries) under either predicate, for
any fuel at least 3. -/
theorem runQuery_not_auth (α : Type) (e : GitHubApiError) (fuel : Nat) (hfuel : 3 ≤ fuel)
    (retryFn : Nat → GitHubApiError → Bool)
    (hr : ∀ fc, retryFn fc e = decide (fc < 3)) :
    runQueryWithRetry retryFn (fun _ => (.error e : Except GitHubApiError α)) 0 fuel =
      (.error e, 4) := by
  obtain ⟨k, rfl⟩ : ∃ k, fuel = k + 3 := ⟨fuel - 3, by omega⟩
  show runQueryWithRetry retryFn (fun _ => (.error e : Except GitHubApiError α)) 0 ((k + 2) + 1)
      = (.error e, 4)
  rw [runQueryWithRetry]
  simp only [hr, decide_eq_true_eq]
  rw [if_pos (by omega)]
  show runQueryWithRetry retryFn (fun _ => (.error e : Except GitHubApiError α)) 1 ((k + 1) + 1)
      = (.error e, 4)
  rw [runQueryWithRetry]
  simp only [hr, decide_eq_true_eq]
  rw [if_pos (by omega)]
  show runQueryWithRetry retryFn (fun _ => (.error e : Except GitHubApiError α)) 2 (k + 1)
      = (.error e, 4)
  rw [runQueryWithRetry]
  simp only [hr, decide_eq_true_eq]
  rw [if_pos (by omega)]
  cases k with
  | zero => rfl
  | succ k =>
    rw [runQueryWithRetry]
    simp only [hr, decide_eq_true_eq]
    rw [if_neg (by omega)]

/-- C4: reads never retry a 401/403 — both the `useRepositories` predicate
and the query-client default installed in `App.tsx` (inherited by
`useRepository`, `useUser` and `useRepositoryContents`, which set no
predicate of their own) return `false` at every failure count, so the loop
surfaces the failure after the single initial attempt — while any other
failure (e.g. a 500) is retried while the failure count is below the
configured ceiling of 3, the loop surfacing the failure after the three
retries. -/
theorem claim4_retry_policy (α : Type) (eAuth eOther : GitHubApiError) (fc fuel : Nat)
    (hAuth : eAuth.status = some 401 ∨ eAuth.status = some 403)
    (hOther : ∀ s, eOther.status = some s → s ≠ 401 ∧ s ≠ 403)
    (hfuel : 3 ≤ fuel) :
    useRepositoriesRetry fc eAuth = false ∧
    queryClientDefaultRetry fc eAuth = false ∧
    runQueryWithRetry useRepositoriesRetry
      (fun _ => (.error eAuth : Except GitHubApiError α)) 0 fuel = (.error eAuth, 1) ∧
    useRepositoriesRetry fc eOther = decide (fc < 3) ∧
    queryClientDefaultRetry fc eOther = decide (fc < 3) ∧
    runQueryWithRetry useRepositoriesRetry
      (fun _ => (.error eOther : Except GitHubApiError α)) 0 fuel = (.error eOther, 4) ∧
    runQueryWithRetry queryClientDefaultRetry
      (fun _ => (.error eOther : Except GitHubApiError α)) 0 fuel = (.error eOther, 4) := by
  have hAuthFalse : ∀ n, useRepositoriesRetry n eAuth = false := by
    intro n
    rcases hAuth with hs | hs <;> simp [useRepositoriesRetry, hs]
  have hAuthFalse' : ∀ n, queryClientDefaultRetry n eAuth = false := by
    intro n
    rcases hAuth with hs | hs <;> simp [queryClientDefaultRetry, hs]
  refine ⟨hAuthFalse fc, hAuthFalse' fc, ?_, (retry_of_not_auth eOther hOther fc).1,
    (retry_of_not_auth eOther hOther fc).2, ?_, ?_⟩
  · cases fuel with
    | zero => rfl
    | succ fuel => rw [runQueryWithRetry]; simp [hAuthFalse]
  · exact runQuery_not_auth α eOther fuel hfuel useRepositoriesRetry
      (fun n => (retry_of_not_auth eOther hOther n).1)
  · exact runQuery_not_auth α eOther fuel hfuel queryClientDefaultRetry
      (fun n => (retry_of_not_auth eOther hOther n).2)

/-- Witness for C4 at a 401 error and a 500 error with fuel 3. -/
theorem claim4_witness :
    useRepositoriesRetry 0 { message := "Bad credentials", status := some 401 } = false ∧
    queryClientDefaultRetry 0 { message := "Bad credentials", status := some 401 } = false ∧
    runQueryWithRetry useRepositoriesRetry
      (fun _ => (.error { message := "Bad credentials", status := some 401 } :
        Except GitHubApiError Unit)) 0 3 =
      (.error { message := "Bad credentials", status := some 401 }, 1) ∧
    useRepositoriesRetry 0 { message := "Server Error", status := some 500 } =
      decide (0 < 3) ∧
    queryClientDefaultRetry 0 { message := "Server Error", status := some 500 } =
      decide (0 < 3) ∧
    runQueryWithRetry useRepositoriesRetry
      (fun _ => (.error { message := "Server Error", status := some 500 } :
        Except GitHubApiError Unit)) 0 3 =
      (.error { message := "Server Error", status := some 500 }, 4) ∧
    runQueryWithRetry queryClientDefaultRetry
      (fun _ => (.error { message := "Server Error", status := some 500 } :
        Except GitHubApiError Unit)) 0 3 =
      (.error { message := "Server Error", status := some 500 }, 4) :=
  claim4_retry_policy Unit { message := "Bad credentials", status := some 401 }
    { message := "Server Error", status := some 500 } 0 3
    (Or.inl rfl)
    (by intro s hs; rw [show ({ message := "Server Error", status := some 500 } :
      GitHubApiError).status = some 500 from rfl] at hs; cases hs; omega)
    (by omega)

/-! ## Claim C3: mutations and cache invalidation -/

/-- Invalidation maps the looked-up entry (keys are preserved). -/
theorem cacheLookup_invalidate (f k : QueryKey) (c : Cache) :
    cacheLookup (invalidateQueries f c) k =
      (cacheLookup c k).map
        (fun e => if queryKeyMatches e.key f then { e with isInvalidated := true } else e) := by
  unfold cacheLookup invalidateQueries
  rw [List.find?_map]
  have hp : ((fun e => e.key == k) ∘ fun e =>
      if queryKeyMatches e.key f then { e with isInvalidated := true } else e) =
      fun e : CacheEntry => e.key == k := by
    funext e
    simp only [Function.comp_apply]
    split <;> rfl
  rw [hp]

/-- After `invalidateQueries f`, a read of `k` hits the network iff it
already would have, or `k` matches the filter. -/
theorem readUsesNetwork_invalidate (f k : QueryKey) (c : Cache) :
    readUsesNetwork (invalidateQueries f c) k =
      (readUsesNetwork c k || queryKeyMatches k f) := by
  unfold readUsesNetwork
  rw [cacheLookup_invalidate]
  cases h : cacheLookup c k with
  | none => simp
  | some e =>
    have hk : e.key = k := by
      have := List.find?_some h
      exact eq_of_beq this
    subst hk
    cases hqm : queryKeyMatches e.key f with
    | false => simp [hqm]
    | true => simp [hqm]

/-- Every key matches itself as a filter. -/
theorem queryKeyMatches_self (k : QueryKey) : queryKeyMatches k k = true := by
  induction k with
  | nil => rfl
  | cons x xs ih => simp [queryKeyMatches, ih]

/-- C3 counterexample: after a successful file upload to `octo/demo`, the
cached contents listing of the sub-path `docs` — part of the affected
resource family — is still served from cache: the invalidation filter's
`undefined` path element does not match the concrete path element, so the
subsequent read issues no fresh network call, refuting the claim for the
upload-file (and delete-file) mutation. -/
theorem claim3_counterexample :
    readUsesNetwork
      (uploadFileOnSuccess "octo" "demo"
        [{ key := QK.repositoryContents "octo" "demo" (some "docs"), isInvalidated := false }])
      (QK.repositoryContents "octo" "demo" (some "docs")) = false ∧
    readUsesNetwork
      (deleteFileOnSuccess "octo" "demo"
        [{ key := QK.repositoryContents "octo" "demo" (some "docs"), isInvalidated := false }])
      (QK.repositoryContents "octo" "demo" (some "docs")) = false := by
  constructor <;> rfl

/-- C3 (amended): create/update/delete/toggle invalidate their resource
families as claimed — in particular deleting a repository invalidates both
the repository list and the current-user entry — and the file mutations
invalidate the repository-contents entry whose path element is `undefined`
(the root listing); but a contents entry with a concrete path element is
left untouched by the file mutations, so a subsequent read of it does not
issue a fresh network call unless it already would have. -/
theorem claim3_amended_invalidation (c : Cache) (owner repo p : String) :
    readUsesNetwork (createRepositoryOnSuccess c) QK.repositories = true ∧
    readUsesNetwork (createRepositoryOnSuccess c) QK.user = true ∧
    readUsesNetwork (updateRepositoryOnSuccess owner repo c) (QK.repository owner repo) = true ∧
    readUsesNetwork (updateRepositoryOnSuccess owner repo c) QK.repositories = true ∧
    readUsesNetwork (deleteRepositoryOnSuccess c) QK.repositories = true ∧
    readUsesNetwork (deleteRepositoryOnSuccess c) QK.user = true ∧
    readUsesNetwork (toggleVisibilityOnSuccess owner repo c) (QK.repository owner repo) = true ∧
    readUsesNetwork (toggleVisibilityOnSuccess owner repo c) QK.repositories = true ∧
    readUsesNetwork (uploadFileOnSuccess owner repo c)
      (QK.repositoryContents owner repo none) = true ∧
    readUsesNetwork (deleteFileOnSuccess owner repo c)
      (QK.repositoryContents owner repo none) = true ∧
    readUsesNetwork (uploadFileOnSuccess owner repo c)
      (QK.repositoryContents owner repo (some p)) =
      readUsesNetwork c (QK.repositoryContents owner repo (some p)) ∧
    readUsesNetwork (deleteFileOnSuccess owner repo c)
      (QK.repositoryContents owner repo (some p)) =
      readUsesNetwork c (QK.repositoryContents owner repo (some p)) := by
  have hnomatch :
      queryKeyMatches (QK.repositoryContents owner repo (some p))
        (QK.repositoryContents owner repo none) = false := by
    simp [queryKeyMatches, QK.repositoryContents]
  refine ⟨?_, ?_, ?_, ?_, ?_, ?_, ?_, ?_, ?_, ?_, ?_, ?_⟩ <;>
    simp [createRepositoryOnSuccess, updateRepositoryOnSuccess, deleteRepositoryOnSuccess,
      toggleVisibilityOnSuccess, uploadFileOnSuccess, deleteFileOnSuccess,
      readUsesNetwork_invalidate, queryKeyMatches_self, hnomatch]

/-! ## Claims C7, C8, C10: auth lifecycle -/

/-- An oracle that approves any request (`response.ok = true`). -/
def okNet : HttpRequest → Option FetchResult := fun _ => some ⟨true, 200⟩

/-- C7 counterexample: `login("")` against an approving server succeeds
and persists the empty string, after which a token *is* stored yet
`isAuthenticated()` returns `false` (JavaScript `Boolean("")`), refuting
both the "false iff no token is stored" biconditional and "true
immediately after a successful login". -/
theorem claim7_counterexample :
    login "" none okNet = (true, some "") ∧
    isAuthenticated (some "") = false ∧
    (some "" : Option String) ≠ none := by
  refine ⟨rfl, rfl, by simp⟩

/-- C7 (amended): `isAuthenticated()` returns `false` iff no token is
stored or the stored token is the empty string; `login(token)` persists
the token exactly when validation succeeds — so for a nonempty token
`isAuthenticated()` is `true` immediately after a successful login — and
on validation failure returns `false` without persisting anything;
`isAuthenticated()` is `false` immediately after `logout()`. -/
theorem claim7_amended_auth_lifecycle (tok : String) (st : Option String)
    (net netBad : HttpRequest → Option FetchResult) (c : Cache)
    (hne : tok ≠ "") (hv : validateToken tok net = true)
    (hv2 : validateToken tok netBad = false) :
    (isAuthenticated st = false ↔ (st = none ∨ st = some "")) ∧
    login tok st net = (true, some tok) ∧
    isAuthenticated (login tok st net).2 = true ∧
    login tok st netBad = (false, st) ∧
    isAuthenticated (logout st c).1 = false := by
  refine ⟨?_, ?_, ?_, ?_, rfl⟩
  · cases st with
    | none => simp [isAuthenticated]
    | some t => simp [isAuthenticated]
  · simp [login, hv]
  · simp [login, hv, isAuthenticated, hne]
  · simp [login, hv2]

/-- Witness for C7 (amended): token `"abc"`, an approving oracle and a
throwing oracle. -/
theorem claim7_amended_witness :
    (isAuthenticated (some "abc") = false ↔
      ((some "abc" : Option String) = none ∨ (some "abc" : Option String) = some "")) ∧
    login "abc" (some "abc") okNet = (true, some "abc") ∧
    isAuthenticated (login "abc" (some "abc") okNet).2 = true ∧
    login "abc" (some "abc") (fun _ => none) = (false, some "abc") ∧
    isAuthenticated (logout (some "abc") []).1 = false :=
  claim7_amended_auth_lifecycle "abc" (some "abc") okNet (fun _ => none) []
    (by simp) rfl rfl

/-- C8: `logout()` deletes the stored token and fully clears the cache —
afterwards no entry is found for any key, so no cached repository data is
accessible and every subsequent read must hit the network. -/
theorem claim8_logout_clears_cache (st : Option String) (c : Cache) (k : QueryKey) :
    logout st c = (none, []) ∧
    isAuthenticated (logout st c).1 = false ∧
    cacheLookup (logout st c).2 k = none ∧
    readUsesNetwork (logout st c).2 k = true := by
  refine ⟨rfl, rfl, rfl, rfl⟩

/-- C10: `validateToken` catches network-level exceptions (the oracle
answering `none`) and returns `false`, exactly as for an invalid token
(non-ok response) — the two oracles are indistinguishable through it — and
`login` consequently returns `false` without persisting in both cases. -/
theorem claim10_validateToken_total (tok : String) (st : Option String)
    (netThrow netBad : HttpRequest → Option FetchResult)
    (hthrow : ∀ req, netThrow req = none)
    (hbad : ∀ req, netBad req = some ⟨false, 401⟩) :
    validateToken tok netThrow = false ∧
    validateToken tok netBad = false ∧
    validateToken tok netThrow = validateToken tok netBad ∧
    login tok st netThrow = (false, st) ∧
    login tok st netBad = (false, st) := by
    have h1 : validateToken tok netThrow = false := by simp [validateToken, hthrow]
    have h2 : validateToken tok netBad = false := by simp [validateToken, hbad]
    exact ⟨h1, h2, by rw [h1, h2], by simp [login, h1], by simp [login, h2]⟩

/-- Witness for C10: the constantly-throwing oracle and the constantly-401
oracle at token `"abc"`. -/
theorem claim10_witness :
    validateToken "abc" (fun _ => none) = false ∧
    validateToken "abc" (fun _ => some ⟨false, 401⟩) = false ∧
    validateToken "abc" (fun _ => none) = validateToken "abc" (fun _ => some ⟨false, 401⟩) ∧
    login "abc" none (fun _ => none) = (false, none) ∧
    login "abc" none (fun _ => some ⟨false, 401⟩) = (false, none) :=
  claim10_validateToken_total "abc" none (fun _ => none) (fun _ => some ⟨false, 401⟩)
    (fun _ => rfl) (fun _ => rfl)

/-! ## Claim C9: the dropped upload error -/

/-- A persistently failing server: every request gets a 500. -/
def net500 : HttpRequest → Resp Unit :=
  fun _ => ⟨false, 500, "Internal Server Error", none, ()⟩

/-- C9 counterexample: in production mode against a failing server (500),
(i) the Dashboard toggle-visibility handler resolves successfully and its
mutation error is merely logged — refuting "an error during the operation
is surfaced to the initiating UI control and is never silently swallowed"
— and (ii) `handleFileUpload`'s promise still resolves successfully while
the upload failure is dropped as an unhandled rejection inside the
`FileReader` `onload` callback — refuting "a failure of the file-upload
mutation propagates to the caller of the upload handler". -/
theorem claim9_counterexample :
    (dashboardHandleToggleVisibility (some "tok") net500 "octo/demo" false
      ).callerResult = .ok () ∧
    (dashboardHandleToggleVisibility (some "tok") net500 "octo/demo" false
      ).swallowedErrors.length = 1 ∧
    (widgetHandleFileUpload (some "tok") net500 "octo/demo" "a.txt" "hello" "add a.txt"
      ).callerResult = .ok () ∧
    (widgetHandleFileUpload (some "tok") net500 "octo/demo" "a.txt" "hello" "add a.txt"
      ).unhandledErrors.length = 1 := by
  refine ⟨rfl, rfl, rfl, rfl⟩

/-- C9 (amended): mutating errors are not surfaced for every operation.
The Dashboard delete-repository handler rethrows its mutation error to
the confirmation dialog, but the Dashboard toggle-visibility handler
catches its mutation error and only logs it — its caller sees success —
and a failure of the file-upload mutation does not propagate to the caller
of either upload handler: the handler resolves successfully and the error
is dropped (an unhandled rejection) inside the asynchronous file-read
callback. -/
theorem claim9_amended_upload_error_dropped (α : Type) (st : Option String)
    (net : HttpRequest → Resp α) (fullName fileName fileText commitMessage : String)
    (repoPrivate : Bool) (e eTog eDel : GitHubApiError)
    (he : (uploadFile st net ((jsSplitSlash fullName).headD "")
      (((jsSplitSlash fullName).drop 1).headD "")
      { path := fileName, content := fileText, message := commitMessage }).1 = .error e)
    (ht : (toggleRepositoryVisibility st net ((jsSplitSlash fullName).headD "")
      (((jsSplitSlash fullName).drop 1).headD "") (!repoPrivate)).1 = .error eTog)
    (hd : (deleteRepository st net ((jsSplitSlash fullName).headD "")
      (((jsSplitSlash fullName).drop 1).headD "")).1 = .error eDel)
    (ho : (jsSplitSlash fullName).headD "" ≠ "")
    (hr : ((jsSplitSlash fullName).drop 1).headD "" ≠ "") :
    widgetHandleFileUpload st net fullName fileName fileText commitMessage =
      { callerResult := .ok (), unhandledErrors := [e] } ∧
    successPageHandleFileUpload st net fullName fileName fileText commitMessage =
      { callerResult := .ok (), unhandledErrors := [e] } ∧
    dashboardHandleToggleVisibility st net fullName repoPrivate =
      { callerResult := .ok (), swallowedErrors := [eTog] } ∧
    dashboardHandleDeleteRepository st net fullName =
      { callerResult := .error eDel, swallowedErrors := [] } := by
  have hcond : ¬((jsSplitSlash fullName).headD "" = "" ∨
      ((jsSplitSlash fullName).drop 1).headD "" = "") := by
    push_neg
    exact ⟨ho, hr⟩
  refine ⟨?_, ?_, ?_, ?_⟩
  · simp only [widgetHandleFileUpload, he, droppedErrors]
  · simp only [successPageHandleFileUpload, he, droppedErrors, if_neg hcond]
  · simp only [dashboardHandleToggleVisibility, ht, if_neg hcond]
  · simp only [dashboardHandleDeleteRepository, hd, if_neg hcond]

/-- Witness for C9 (amended) at the failing server and `octo/demo`. -/
theorem claim9_amended_witness :
    widgetHandleFileUpload (some "tok") net500 "octo/demo" "a.txt" "hello" "add a.txt" =
      { callerResult := .ok (),
        unhandledErrors := [{ message := fallbackMessage 500 "Internal Server Error"
                              status := some 500 }] } ∧
    successPageHandleFileUpload (some "tok") net500 "octo/demo" "a.txt" "hello" "add a.txt" =
      { callerResult := .ok (),
        unhandledErrors := [{ message := fallbackMessage 500 "Internal Server Error"
                              status := some 500 }] } ∧
    dashboardHandleToggleVisibility (some "tok") net500 "octo/demo" false =
      { callerResult := .ok (),
        swallowedErrors := [{ message := fallbackMessage 500 "Internal Server Error"
                              status := some 500 }] } ∧
    dashboardHandleDeleteRepository (some "tok") net500 "octo/demo" =
      { callerResult := .error { message := "Failed to delete repository: " ++
                                   "Internal Server Error"
                                 status := some 500 }
        swallowedErrors := [] } :=
  claim9_amended_upload_error_dropped Unit (some "tok") net500 "octo/demo" "a.txt" "hello"
    "add a.txt" false
    { message := fallbackMessage 500 "Internal Server Error", status := some 500 }
    { message := fallbackMessage 500 "Internal Server Error", status := some 500 }
    { message := "Failed to delete repository: " ++ "Internal Server Error"
      status := some 500 }
    rfl rfl rfl (by decide) (by decide)

/-! ## Claim C6: base64/UTF-8 wire encoding round-trips

First the pure encoding facts: the base64 alphabet is injectively mapped
and decoded, `b64Decode` inverts `base64Encode` on byte lists, and
`utf8Decode` inverts `utf8EncodeList` on code-point lists; then that the
`btoa(unescape(encodeURIComponent(·)))` pipeline equals base64 of UTF-8. -/

/-- Decoding inverts the base64 alphabet on every sextet. -/
theorem b64Val_sext : ∀ v < 64, b64Val (b64SextChar v) = some v := by decide

/-- No sextet maps to the padding character `'='` (61). -/
theorem sext_ne_61 : ∀ v < 64, b64SextChar v ≠ 61 := by decide

set_option maxRecDepth 4000 in
/-- `b64Decode` inverts `base64Encode` on byte lists. -/
theorem b64_roundtrip (bs : List Nat) (h : ∀ b ∈ bs, b < 256) :
    b64Decode (base64Encode bs) = some bs := by
  induction bs using base64Encode.induct with
  | case1 => rfl
  | case2 a =>
    have ha : a < 256 := h a (by simp)
    have e1 := b64Val_sext (a / 4) (by omega)
    have e2 := b64Val_sext (a % 4 * 16) (by omega)
    simp only [base64Encode, b64Decode, b64DecodeLast, e1, e2]
    simp
    omega
  | case3 a b =>
    have ha : a < 256 := h a (by simp)
    have hb : b < 256 := h b (by simp)
    have e1 := b64Val_sext (a / 4) (by omega)
    have e2 := b64Val_sext (a % 4 * 16 + b / 16) (by omega)
    have e3 := b64Val_sext (b % 16 * 4) (by omega)
    have hne := sext_ne_61 (b % 16 * 4) (by omega)
    simp only [base64Encode, b64Decode, b64DecodeLast, e1, e2, e3]
    simp [hne]
    refine ⟨by omega, by omega⟩
  | case4 a b c rest ih =>
    have ha : a < 256 := h a (by simp)
    have hb : b < 256 := h b (by simp)
    have hc : c < 256 := h c (by simp)
    have hrest : ∀ x ∈ rest, x < 256 := fun x hx => h x (by simp [hx])
    have e1 := b64Val_sext (a / 4) (by omega)
    have e2 := b64Val_sext (a % 4 * 16 + b / 16) (by omega)
    have e3 := b64Val_sext (b % 16 * 4 + c / 64) (by omega)
    have e4 := b64Val_sext (c % 64) (by omega)
    have hne3 := sext_ne_61 (b % 16 * 4 + c / 64) (by omega)
    have hne4 := sext_ne_61 (c % 64) (by omega)
    simp only [base64Encode, b64Decode, e1, e2, e3, e4, ih hrest]
    simp [hne3, hne4]
    refine ⟨by omega, by omega, by omega⟩

/-- Every byte of a UTF-8 encoding fits in one octet. -/
theorem utf8EncodeNat_lt (c : Nat) (hc : c < 1114112) :
    ∀ b ∈ utf8EncodeNat c, b < 256 := by
  intro b hb
  rw [utf8EncodeNat] at hb
  split at hb
  · simp at hb; omega
  · split at hb
    · simp at hb; rcases hb with hb | hb <;> omega
    · split at hb
      · simp at hb; rcases hb with hb | hb | hb <;> omega
      · simp at hb; rcases hb with hb | hb | hb | hb <;> omega

/-- A UTF-8 encoding is never empty. -/
theorem utf8EncodeNat_ne_nil (c : Nat) : utf8EncodeNat c ≠ [] := by
  rw [utf8EncodeNat]
  split
  · simp
  · split
    · simp
    · split <;> simp

/-- `utf8DecodeOne` parses back exactly the code point it was handed,
leaving the tail untouched. -/
theorem utf8DecodeOne_enc (c : Nat) (hc : c < 1114112) (tail : List Nat) :
    utf8DecodeOne (utf8EncodeNat c ++ tail) = some (c, tail) := by
  rw [utf8EncodeNat]
  by_cases h1 : c < 128
  · rw [if_pos h1]
    show utf8DecodeOne (c :: tail) = _
    rw [utf8DecodeOne, if_pos h1]
  · rw [if_neg h1]
    by_cases h2 : c < 2048
    · rw [if_pos h2]
      show utf8DecodeOne ((192 + c / 64) :: (128 + c % 64) :: tail) = _
      rw [utf8DecodeOne, if_neg (by omega), if_neg (by omega), if_pos (by omega)]
      rw [utf8DecTwo, if_pos (by omega)]
      have hv : (192 + c / 64 - 192) * 64 + (128 + c % 64 - 128) = c := by omega
      rw [hv]
    · rw [if_neg h2]
      by_cases h3 : c < 65536
      · rw [if_pos h3]
        show utf8DecodeOne ((224 + c / 4096) :: (128 + c / 64 % 64) :: (128 + c % 64) :: tail) = _
        rw [utf8DecodeOne, if_neg (by omega), if_neg (by omega), if_neg (by omega),
            if_pos (by omega)]
        rw [utf8DecThree, if_pos (by omega)]
        have hv : (224 + c / 4096 - 224) * 4096 + (128 + c / 64 % 64 - 128) * 64 +
            (128 + c % 64 - 128) = c := by omega
        rw [hv]
      · rw [if_neg h3]
        show utf8DecodeOne ((240 + c / 262144) :: (128 + c / 4096 % 64) ::
          (128 + c / 64 % 64) :: (128 + c % 64) :: tail) = _
        rw [utf8DecodeOne, if_neg (by omega), if_neg (by omega), if_neg (by omega),
            if_neg (by omega), if_pos (by omega)]
        rw [utf8DecFour, if_pos (by omega)]
        have hv : (240 + c / 262144 - 240) * 262144 + (128 + c / 4096 % 64 - 128) * 4096 +
            (128 + c / 64 % 64 - 128) * 64 + (128 + c % 64 - 128) = c := by omega
        rw [hv]

/-- The fueled decoder inverts `utf8EncodeList` whenever the fuel covers
the input length. -/
theorem utf8DecodeAux_roundtrip (cps : List Nat) (h : ∀ c ∈ cps, c < 1114112) :
    ∀ fuel, (utf8EncodeList cps).length ≤ fuel →
      utf8DecodeAux fuel (utf8EncodeList cps) = some cps := by
  induction cps with
  | nil =>
    intro fuel _
    cases fuel <;> rfl
  | cons c rest ih =>
    intro fuel hfuel
    have hc : c < 1114112 := h c (by simp)
    have hrest : ∀ x ∈ rest, x < 1114112 := fun x hx => h x (by simp [hx])
    have henc : utf8EncodeList (c :: rest) = utf8EncodeNat c ++ utf8EncodeList rest := by
      rw [utf8EncodeList, List.map_cons, List.flatten_cons]
      rfl
    rw [henc] at hfuel ⊢
    obtain ⟨x, xs, hx⟩ : ∃ x xs, utf8EncodeNat c = x :: xs := by
      cases hcc : utf8EncodeNat c with
      | nil => exact absurd hcc (utf8EncodeNat_ne_nil c)
      | cons x xs => exact ⟨x, xs, rfl⟩
    have hlen1 : 1 ≤ (utf8EncodeNat c).length := by rw [hx]; simp
    obtain ⟨f, rfl⟩ : ∃ f, fuel = f + 1 := by
      rcases fuel with _ | f
      · exfalso
        rw [List.length_append] at hfuel
        omega
      · exact ⟨f, rfl⟩
    rw [hx, List.cons_append, utf8DecodeAux]
    rw [← List.cons_append, ← hx, utf8DecodeOne_enc c hc]
    have hfrest : (utf8EncodeList rest).length ≤ f := by
      rw [List.length_append] at hfuel
      omega
    show (utf8DecodeAux f (utf8EncodeList rest)).map (c :: ·) = some (c :: rest)
    rw [ih hrest f hfrest]
    rfl

/-- `utf8Decode` inverts `utf8EncodeList` on valid code points. -/
theorem utf8_roundtrip (cps : List Nat) (h : ∀ c ∈ cps, c < 1114112) :
    utf8Decode (utf8EncodeList cps) = some cps :=
  utf8DecodeAux_roundtrip cps h _ le_rfl

/-- `utf8EncodeList` distributes over cons. -/
theorem utf8EncodeList_cons (c : Nat) (rest : List Nat) :
    utf8EncodeList (c :: rest) = utf8EncodeNat c ++ utf8EncodeList rest := by
  rw [utf8EncodeList, List.map_cons, List.flatten_cons]
  rfl

/-- Every byte of a UTF-8 encoded code-point list fits in one octet. -/
theorem utf8EncodeList_lt (cps : List Nat) (h : ∀ c ∈ cps, c < 1114112) :
    ∀ b ∈ utf8EncodeList cps, b < 256 := by
  intro b hb
  rw [utf8EncodeList] at hb
  simp only [List.mem_flatten, List.mem_map] at hb
  obtain ⟨l, ⟨c, hc, rfl⟩, hbl⟩ := hb
  exact utf8EncodeNat_lt c (h c hc) b hbl

/-- `unescape` inverts the hex digits `encodeURIComponent` emits. -/
theorem hexVal_hexDigitChar : ∀ v < 16, hexVal (hexDigitChar v) = some v := by decide

/-- A non-`%` head passes through `unescape` unchanged. -/
theorem unescape_cons_ne (c : Nat) (hc : c ≠ 37) (l : List Nat) :
    unescapeJS (c :: l) = c :: unescapeJS l := by
  match l with
  | [] => simp [unescapeJS]
  | [d] => simp [unescapeJS]
  | d :: e :: l2 =>
    rw [unescapeJS, if_neg hc]

/-- `unescape` decodes one percent-escape off the front. -/
theorem unescape_pct (b : Nat) (hb : b < 256) (tail : List Nat) :
    unescapeJS (pctEncodeByte b ++ tail) = b :: unescapeJS tail := by
  show unescapeJS (37 :: hexDigitChar (b / 16) :: hexDigitChar (b % 16) :: tail) = _
  rw [unescapeJS, if_pos rfl,
      hexVal_hexDigitChar (b / 16) (by omega), hexVal_hexDigitChar (b % 16) (by omega)]
  show (b / 16 * 16 + b % 16) :: unescapeJS tail = b :: unescapeJS tail
  have hv : b / 16 * 16 + b % 16 = b := by omega
  rw [hv]

/-- `unescape` decodes a run of percent-escapes off the front. -/
theorem unescape_pcts (bs : List Nat) (h : ∀ b ∈ bs, b < 256) (tail : List Nat) :
    unescapeJS ((bs.map pctEncodeByte).flatten ++ tail) = bs ++ unescapeJS tail := by
  induction bs with
  | nil => rfl
  | cons b rest ih =>
    have hb : b < 256 := h b (by simp)
    have hrest : ∀ x ∈ rest, x < 256 := fun x hx => h x (by simp [hx])
    rw [List.map_cons, List.flatten_cons, List.append_assoc,
        unescape_pct b hb, ih hrest, List.cons_append]

/-- An unreserved character is ASCII and is not `'%'` (37). -/
theorem unreserved_lt (c : Nat) (h : uriUnreservedChar c = true) : c < 128 ∧ c ≠ 37 := by
  simp only [uriUnreservedChar, Bool.or_eq_true, Bool.and_eq_true, decide_eq_true_eq,
    beq_iff_eq] at h
  omega

/-- The browser idiom: `unescape(encodeURIComponent(·))` converts a string
of code points into (the latin-1 rendering of) its UTF-8 bytes. -/
theorem unescape_encodeURIComponent (cps : List Nat) (h : ∀ c ∈ cps, c < 1114112) :
    unescapeJS (encodeURIComponentJS cps) = utf8EncodeList cps := by
  induction cps with
  | nil => simp [unescapeJS, encodeURIComponentJS, utf8EncodeList]
  | cons c rest ih =>
    have hc : c < 1114112 := h c (by simp)
    have hrest : ∀ x ∈ rest, x < 1114112 := fun x hx => h x (by simp [hx])
    rw [encodeURIComponentJS, utf8EncodeList_cons]
    by_cases hu : uriUnreservedChar c
    · obtain ⟨hlt, hne⟩ := unreserved_lt c hu
      rw [if_pos hu, List.singleton_append, unescape_cons_ne c hne, ih hrest]
      have hsingle : utf8EncodeNat c = [c] := by rw [utf8EncodeNat, if_pos hlt]
      rw [hsingle, List.singleton_append]
    · rw [if_neg hu, unescape_pcts (utf8EncodeNat c) (utf8EncodeNat_lt c hc), ih hrest]

/-- Every code point of a Lean/JavaScript string is a Unicode scalar value. -/
theorem char_toNat_lt (ch : Char) : ch.toNat < 1114112 := by
  show ch.val.toNat < 1114112
  rcases ch.valid with h | ⟨h1, h2⟩ <;> omega

/-- Bound on all code points of a string. -/
theorem strCodepoints_lt (s : String) : ∀ c ∈ strCodepoints s, c < 1114112 := by
  intro c hc
  rw [strCodepoints] at hc
  simp only [List.mem_map] at hc
  obtain ⟨ch, _, rfl⟩ := hc
  exact char_toNat_lt ch

/-- The `btoa(unescape(encodeURIComponent(x)))` pipeline computed by
`uploadFile` is exactly base64 of the UTF-8 bytes of `x` (and `btoa`
cannot throw on it: every char code is a UTF-8 octet). -/
theorem base64Content_eq (s : String) :
    btoaJS (unescapeJS (encodeURIComponentJS (strCodepoints s))) =
      some (base64Encode (utf8EncodeList (strCodepoints s))) ∧
    base64Content s = base64Encode (utf8EncodeList (strCodepoints s)) := by
  have hbytes := unescape_encodeURIComponent (strCodepoints s) (strCodepoints_lt s)
  have hall : (utf8EncodeList (strCodepoints s)).all (fun c => c < 256) = true := by
    simp only [List.all_eq_true, decide_eq_true_eq]
    exact utf8EncodeList_lt (strCodepoints s) (strCodepoints_lt s)
  have hbtoa : btoaJS (unescapeJS (encodeURIComponentJS (strCodepoints s))) =
      some (base64Encode (utf8EncodeList (strCodepoints s))) := by
    rw [hbytes, btoaJS, if_pos hall]
  exact ⟨hbtoa, by rw [base64Content, hbtoa]; rfl⟩

/-- C6: `uploadFile` sends on the wire
`btoa(unescape(encodeURIComponent(x)))`, which equals the base64 encoding
of the UTF-8 bytes of the content, and the encoding round-trips: base64-
then UTF-8-decoding the transmitted bytes recovers exactly the content's
code points, for an arbitrary string including multi-byte characters. -/
theorem claim6_upload_base64_roundtrip (α : Type) (tok owner repo : String)
    (net : HttpRequest → Resp α) (params : UploadFileRequest) :
    (uploadFile (some tok) net owner repo params).2 =
      [⟨"PUT", baseUrl ++ "/repos/" ++ owner ++ "/" ++ repo ++ "/contents/" ++ params.path,
        ⟨"Bearer " ++ tok, "application/vnd.github.v3+json", some "application/json"⟩,
        some (.upFile params.message (base64Content params.content) (truthyStr params.sha)
          (truthyStr params.branch) params.committer params.author)⟩] ∧
    base64Content params.content =
      base64Encode (utf8EncodeList (strCodepoints params.content)) ∧
    (b64Decode (base64Content params.content)).bind utf8Decode =
      some (strCodepoints params.content) := by
  have heq := (base64Content_eq params.content).2
  refine ⟨rfl, heq, ?_⟩
  rw [heq, b64_roundtrip (utf8EncodeList (strCodepoints params.content))
    (utf8EncodeList_lt (strCodepoints params.content) (strCodepoints_lt params.content))]
  show utf8Decode (utf8EncodeList (strCodepoints params.content)) = _
  exact utf8_roundtrip (strCodepoints params.content) (strCodepoints_lt params.content)

end Vlast
